import Mathlib

/-!
Verification development for the claire orchestration core.

This file gives a shallow embedding, in Lean, of the scheduler, agent loop,
retry policy, session/job managers and the local job store of the claire
repository, and proves properties of those definitions.  Stateful TypeScript
is rendered as explicit state passing; `async` control flow is rendered as
pure functions over an explicit virtual clock or an effect trace; JS `Map`s
become association lists; machine numbers become `Nat`/`Int`/`ℚ`.
-/

/-! Data model, from src/common/schema.ts as used by the storage layer. -/

/-- Job status, from the schema: queued → running → succeeded/failed. -/
inductive JobStatus
  | queued
  | running
  | succeeded
  | failed
deriving DecidableEq, Repr

/-- A job record, from the schema used in src/storage/local.ts and the
session manager.  Timestamps are modelled as `Nat` ticks. -/
structure Job where
  id : String
  sessionId : String
  promptMessageTs : String
  promptText : String
  userId : String
  status : JobStatus
  startedAt : Option Nat
  endedAt : Option Nat
  resultSummary : Option String
deriving DecidableEq, Repr

/-- Comparison used by `findNextQueued`: jobs are ordered by the originating
message timestamp string (`a.promptMessageTs.localeCompare(b.promptMessageTs)`
in the source, modelled as lexicographic string order). -/
def tsLe (a b : Job) : Prop := a.promptMessageTs ≤ b.promptMessageTs

instance : DecidableRel tsLe := fun a b =>
  inferInstanceAs (Decidable (a.promptMessageTs ≤ b.promptMessageTs))

instance : IsTotal Job tsLe :=
  ⟨fun a b => le_total a.promptMessageTs b.promptMessageTs⟩

instance : IsTrans Job tsLe :=
  ⟨fun _ _ _ hab hbc => le_trans hab hbc⟩

/-- Predicate selecting the queued jobs of a session, from the filter in
`jobs.findNextQueued` (src/storage/local.ts lines 136-141). -/
def isQueuedFor (sessionId : String) (j : Job) : Bool :=
  decide (j.sessionId = sessionId ∧ j.status = JobStatus.queued)

/-- Embedding of `jobs.findNextQueued` from src/storage/local.ts: filter the
store to the session's jobs with status `queued`, sort by
`promptMessageTs`, and return the first (or null). -/
def findNextQueued (sessionId : String) (jobs : List Job) : Option Job :=
  ((jobs.filter (isQueuedFor sessionId)).insertionSort tsLe).head?

/-- Embedding of `jobs.clearQueued` from src/storage/local.ts: delete from
the store every job of the session whose status is `queued` (the source
iterates the map and deletes matches; keeping the complement is the same
operation on the list model). -/
def clearQueued (sessionId : String) (jobs : List Job) : List Job :=
  jobs.filter (fun j => !(isQueuedFor sessionId j))

/-! C5: findNextQueued returns the oldest queued job (claim says
"non-terminal", which the code refutes). -/

/-- From the spec's words (§3): a job status is non-terminal when it is
`queued` or `running`; terminal statuses are `succeeded` and `failed`.
Used only to compare the spec's description with the code. -/
def specNonTerminal (s : JobStatus) : Bool :=
  s = JobStatus.queued || s = JobStatus.running

/-- A running (hence non-terminal) job used to refute claim C5 as stated. -/
def jobRunningC5 : Job :=
  ⟨"j-run", "s1", "100.000100", "do things", "u1", JobStatus.running, some 5, none, none⟩

/-- C5 counterexample: a session whose only job is `running` (non-terminal)
makes `findNextQueued` return null, although the claim as stated requires
the oldest non-terminal job to be returned whenever one exists. -/
theorem findNextQueued_nonterminal_counterexample :
    jobRunningC5.sessionId = "s1" ∧
    specNonTerminal jobRunningC5.status = true ∧
    findNextQueued "s1" [jobRunningC5] = none := by
  refine ⟨rfl, rfl, ?_⟩
  simp [findNextQueued, isQueuedFor, jobRunningC5, List.insertionSort]

/-- C5 (amended): `findNextQueued` returns the oldest job of the session
with status `queued` — smallest `promptMessageTs` among the session's queued
jobs — and returns null exactly when the session has no queued job. -/
theorem findNextQueued_oldest_queued (sessionId : String) (jobs : List Job) :
    (∀ j, findNextQueued sessionId jobs = some j →
      j ∈ jobs ∧ j.sessionId = sessionId ∧ j.status = JobStatus.queued ∧
      ∀ j' ∈ jobs, j'.sessionId = sessionId → j'.status = JobStatus.queued →
        j.promptMessageTs ≤ j'.promptMessageTs) ∧
    (findNextQueued sessionId jobs = none →
      ∀ j ∈ jobs, ¬(j.sessionId = sessionId ∧ j.status = JobStatus.queued)) := by
  have hperm := List.perm_insertionSort tsLe (jobs.filter (isQueuedFor sessionId))
  have hsorted := List.sorted_insertionSort tsLe (jobs.filter (isQueuedFor sessionId))
  constructor
  · intro j hj
    unfold findNextQueued at hj
    cases hs : (jobs.filter (isQueuedFor sessionId)).insertionSort tsLe with
    | nil => rw [hs] at hj; simp at hj
    | cons a t =>
      rw [hs] at hj
      simp only [List.head?, Option.some.injEq] at hj
      subst hj
      have hjl : a ∈ jobs.filter (isQueuedFor sessionId) :=
        hperm.mem_iff.mp (by rw [hs]; exact List.mem_cons_self _ _)
      have hjfacts := List.mem_filter.mp hjl
      have hq : a.sessionId = sessionId ∧ a.status = JobStatus.queued := by
        have := hjfacts.2
        simpa [isQueuedFor] using this
      refine ⟨hjfacts.1, hq.1, hq.2, ?_⟩
      intro j' hj' hsid hst
      have hj'l : j' ∈ jobs.filter (isQueuedFor sessionId) :=
        List.mem_filter.mpr ⟨hj', by simp [isQueuedFor, hsid, hst]⟩
      have hj's := hperm.mem_iff.mpr hj'l
      rw [hs] at hj's
      rcases List.mem_cons.mp hj's with h | h
      · rw [h]
      · rw [hs] at hsorted
        exact List.rel_of_sorted_cons hsorted j' h
  · intro hnone j hj hcontra
    unfold findNextQueued at hnone
    have hjl : j ∈ jobs.filter (isQueuedFor sessionId) :=
      List.mem_filter.mpr ⟨hj, by simp [isQueuedFor, hcontra.1, hcontra.2]⟩
    have hmem := hperm.mem_iff.mpr hjl
    cases hs : (jobs.filter (isQueuedFor sessionId)).insertionSort tsLe with
    | nil => rw [hs] at hmem; simp at hmem
    | cons a t => rw [hs] at hnone; simp at hnone

/-- Jobs used by the C5 witness: two queued jobs of the same session, the
older one having the smaller timestamp string. -/
def jobOlderC5 : Job :=
  ⟨"j-old", "s1", "100.000100", "first", "u1", JobStatus.queued, none, none, none⟩

/-- Second, younger queued job for the C5 witness. -/
def jobNewerC5 : Job :=
  ⟨"j-new", "s1", "200.000100", "second", "u1", JobStatus.queued, none, none, none⟩

/-- C5 witness: on a concrete store holding the two queued jobs in reversed
order, the amended theorem yields the FIFO ordering fact. -/
theorem findNextQueued_oldest_queued_witness :
    jobOlderC5.promptMessageTs ≤ jobNewerC5.promptMessageTs :=
  (((findNextQueued_oldest_queued "s1" [jobNewerC5, jobOlderC5]).1 jobOlderC5
    (by simp [findNextQueued, isQueuedFor, jobOlderC5, jobNewerC5, List.insertionSort,
          List.orderedInsert, tsLe]
        decide)).2.2.2) jobNewerC5 (by simp [jobNewerC5]) (by simp [jobNewerC5]) rfl

/-! Scheduler, from src/controller/scheduler.ts.  The JS `Map`s
`activeWorkers` and `idleTimers` are modelled as association lists with
unique keys; `Map.get`/`set`/`delete` become `mapLookup`/`mapSet`/
`mapDelete`. -/

/-- Lookup in the association-list model of a JS `Map`. -/
def mapLookup {α : Type} (k : String) : List (String × α) → Option α
  | [] => none
  | (k', v) :: rest => if k' = k then some v else mapLookup k rest

/-- JS `Map.set`: replace the entry when the key is present, else append. -/
def mapSet {α : Type} (k : String) (v : α) : List (String × α) → List (String × α)
  | [] => [(k, v)]
  | (k', v') :: rest => if k' = k then (k, v) :: rest else (k', v') :: mapSet k v rest

/-- JS `Map.delete`: remove the entry for the key. -/
def mapDelete {α : Type} (k : String) : List (String × α) → List (String × α)
  | [] => []
  | (k', v') :: rest => if k' = k then mapDelete k rest else (k', v') :: mapDelete k rest

/-- ActiveWorker, from scheduler.ts lines 23-28: session id, running job id,
its cancellation handle (`AbortController`, modelled by its aborted flag)
and start time. -/
structure ActiveWorker where
  sessionId : String
  jobId : String
  aborted : Bool
  startTime : Nat
deriving DecidableEq, Repr

/-- In-memory scheduler state plus the job/session store it talks to:
`activeWorkers` and `idleTimers` are the two module-level maps of
scheduler.ts; `jobs` is the job store; `sessions` maps session id to the
persisted session status string. -/
structure SchedulerState where
  jobs : List Job
  activeWorkers : List (String × ActiveWorker)
  idleTimers : List (String × Unit)
  sessions : List (String × String)
deriving DecidableEq, Repr

/-- Observable actions of one `scheduleNext` call, used to state that the
early-return branch performs none of them. -/
inductive SchedEffect
  | fetchedJob (sessionId : String)
  | registeredWorker (sessionId jobId : String)
  | cancelledIdleTimer (sessionId : String)
  | startedLoop (sessionId jobId : String)
deriving DecidableEq, Repr

/-- Embedding of `Scheduler.scheduleNext` (scheduler.ts lines 73-109):
return untouched when an active worker exists; otherwise fetch the next
queued job (`JobManager.getNext` delegates to `findNextQueued`); if none,
return; otherwise create the cancellation handle, register the
`ActiveWorker`, clear any pending idle timer and start the worker.  The
returned effect list records which of those steps ran. -/
def scheduleNext (sessionId : String) (now : Nat) (st : SchedulerState) :
    SchedulerState × List SchedEffect :=
  if (mapLookup sessionId st.activeWorkers).isSome then
    (st, [])
  else
    match findNextQueued sessionId st.jobs with
    | none => (st, [SchedEffect.fetchedJob sessionId])
    | some job =>
      let worker : ActiveWorker := ⟨sessionId, job.id, false, now⟩
      let st' : SchedulerState :=
        { st with
          activeWorkers := mapSet sessionId worker st.activeWorkers,
          idleTimers := mapDelete sessionId st.idleTimers }
      let timerFx :=
        if (mapLookup sessionId st.idleTimers).isSome then
          [SchedEffect.cancelledIdleTimer sessionId]
        else []
      (st', [SchedEffect.fetchedJob sessionId,
             SchedEffect.registeredWorker sessionId job.id] ++ timerFx ++
            [SchedEffect.startedLoop sessionId job.id])

/-- Number of ActiveWorker entries registered for a session. -/
def countWorkers (sessionId : String) (st : SchedulerState) : Nat :=
  (st.activeWorkers.filter (fun p => decide (p.1 = sessionId))).length

/-- Key-count of an association list. -/
def countKey {α : Type} (k : String) (l : List (String × α)) : Nat :=
  (l.filter (fun p => decide (p.1 = k))).length

theorem countKey_mapSet_of_lookup_none {α : Type} (k : String) (v : α)
    (l : List (String × α)) (h : mapLookup k l = none) :
    countKey k (mapSet k v l) = 1 := by
  induction l with
  | nil => simp [mapSet, countKey]
  | cons p rest ih =>
    obtain ⟨k', v'⟩ := p
    by_cases hk : k' = k
    · simp [mapLookup, hk] at h
    · simp only [mapLookup, if_neg hk] at h
      simpa [mapSet, if_neg hk, countKey, List.filter_cons, hk] using ih h

/-- C1: `scheduleNext` is single-flight.  When an `ActiveWorker` is already
registered for the session the call returns the state unchanged and performs
no effect (no job fetch, no worker registration, no idle-timer cancellation,
no loop start); and a state with at most one worker for the session keeps at
most one worker for it across any `scheduleNext` call. -/
theorem scheduleNext_single_flight (st : SchedulerState) (sessionId : String) (now : Nat) :
    ((mapLookup sessionId st.activeWorkers).isSome = true →
      scheduleNext sessionId now st = (st, [])) ∧
    (countWorkers sessionId st ≤ 1 →
      countWorkers sessionId (scheduleNext sessionId now st).1 ≤ 1) := by
  constructor
  · intro h
    simp [scheduleNext, h]
  · intro h
    unfold scheduleNext
    by_cases hw : (mapLookup sessionId st.activeWorkers).isSome = true
    · simpa [hw] using h
    · have hnone : mapLookup sessionId st.activeWorkers = none := by
        cases hml : mapLookup sessionId st.activeWorkers with
        | none => rfl
        | some w => rw [hml] at hw; simp at hw
      rw [if_neg hw]
      cases hq : findNextQueued sessionId st.jobs with
      | none => simpa using h
      | some job =>
        have hcount := countKey_mapSet_of_lookup_none sessionId
          (⟨sessionId, job.id, false, now⟩ : ActiveWorker) st.activeWorkers hnone
        simp only [countWorkers, countKey] at hcount ⊢
        omega

/-- Concrete worker for the C1 witness. -/
def workerC1 : ActiveWorker := ⟨"s1", "j1", false, 0⟩

/-- Concrete scheduler state for the C1 witness: session "s1" already has an
active worker. -/
def stC1 : SchedulerState := ⟨[], [("s1", workerC1)], [], []⟩

/-- C1 witness: with a worker registered for "s1", a further `scheduleNext`
call leaves the state unchanged, performs nothing, and the worker count for
the session stays at most one. -/
theorem scheduleNext_single_flight_witness :
    scheduleNext "s1" 7 stC1 = (stC1, []) ∧
    countWorkers "s1" (scheduleNext "s1" 7 stC1).1 ≤ 1 :=
  ⟨(scheduleNext_single_flight stC1 "s1" 7).1 (by decide),
   (scheduleNext_single_flight stC1 "s1" 7).2 (by decide)⟩

/-! Abort and stop, from Scheduler.abort/stop (scheduler.ts lines 468-481)
and SessionManager.abort/stop (session manager lines 329-348).  The bus
publish of `session.abort`/`session.stop` is delivered synchronously to the
Scheduler's subscription registered in `Scheduler.init`. -/

/-- Embedding of `Scheduler.abort`: if an ActiveWorker exists for the
session, trigger its cancellation handle (`worker.abort.abort()`). -/
def schedulerAbort (sessionId : String) (st : SchedulerState) : SchedulerState :=
  match mapLookup sessionId st.activeWorkers with
  | some w =>
    { st with
      activeWorkers :=
        mapSet sessionId { w with aborted := true } st.activeWorkers }
  | none => st

/-- Embedding of `Scheduler.stop`: identical to abort for now. -/
def schedulerStop (sessionId : String) (st : SchedulerState) : SchedulerState :=
  schedulerAbort sessionId st

/-- Embedding of `SessionManager.abort`: publish `session.abort` (handled by
`Scheduler.abort`), clear the session's queued jobs from the store, then set
the persisted session status to "aborted". -/
def sessionManagerAbort (sessionId : String) (st : SchedulerState) : SchedulerState :=
  let st1 := schedulerAbort sessionId st
  let st2 := { st1 with jobs := clearQueued sessionId st1.jobs }
  { st2 with sessions := mapSet sessionId "aborted" st2.sessions }

/-- Embedding of `SessionManager.stop`: publish `session.stop` only (handled
by `Scheduler.stop`); the job store is untouched. -/
def sessionManagerStop (sessionId : String) (st : SchedulerState) : SchedulerState :=
  schedulerStop sessionId st

theorem mapLookup_mapSet_self {α : Type} (k : String) (v : α) (l : List (String × α)) :
    mapLookup k (mapSet k v l) = some v := by
  induction l with
  | nil => simp [mapSet, mapLookup]
  | cons p rest ih =>
    obtain ⟨k', v'⟩ := p
    by_cases hk : k' = k
    · simp [mapSet, hk, mapLookup]
    · simp [mapSet, hk, mapLookup, ih]

theorem schedulerAbort_jobs (sessionId : String) (st : SchedulerState) :
    (schedulerAbort sessionId st).jobs = st.jobs := by
  unfold schedulerAbort
  cases mapLookup sessionId st.activeWorkers <;> rfl

/-- C4: with a worker active for the session, `SessionManager.abort` signals
the worker's cancellation handle and removes every queued job of the session
from the store (leaving every other job in place), while
`SessionManager.stop` only signals the cancellation handle and leaves the
job store unchanged. -/
theorem abort_clears_backlog_stop_preserves (st : SchedulerState) (sessionId : String)
    (w : ActiveWorker) (hw : mapLookup sessionId st.activeWorkers = some w) :
    mapLookup sessionId (sessionManagerAbort sessionId st).activeWorkers
        = some { w with aborted := true } ∧
    (∀ j ∈ (sessionManagerAbort sessionId st).jobs,
        ¬(j.sessionId = sessionId ∧ j.status = JobStatus.queued)) ∧
    (∀ j ∈ st.jobs, ¬(j.sessionId = sessionId ∧ j.status = JobStatus.queued) →
        j ∈ (sessionManagerAbort sessionId st).jobs) ∧
    (sessionManagerStop sessionId st).jobs = st.jobs ∧
    mapLookup sessionId (sessionManagerStop sessionId st).activeWorkers
        = some { w with aborted := true } := by
  refine ⟨?_, ?_, ?_, ?_, ?_⟩
  · simp [sessionManagerAbort, schedulerAbort, hw, mapLookup_mapSet_self]
  · intro j hj
    simp only [sessionManagerAbort] at hj
    have hmem : j ∈ clearQueued sessionId (schedulerAbort sessionId st).jobs := hj
    have hfacts := List.mem_filter.mp hmem
    intro hcontra
    have hq : isQueuedFor sessionId j = true := by
      simp [isQueuedFor, hcontra.1, hcontra.2]
    rw [hq] at hfacts
    simp at hfacts
  · intro j hj hnotq
    simp only [sessionManagerAbort]
    show j ∈ clearQueued sessionId (schedulerAbort sessionId st).jobs
    rw [schedulerAbort_jobs]
    refine List.mem_filter.mpr ⟨hj, ?_⟩
    simp only [isQueuedFor, Bool.not_eq_true', decide_eq_false_iff_not]
    exact hnotq
  · simp [sessionManagerStop, schedulerStop, schedulerAbort_jobs]
  · simp [sessionManagerStop, schedulerStop, schedulerAbort, hw, mapLookup_mapSet_self]

/-- Queued sibling job used by the C4 witness. -/
def jobQueuedC4 : Job :=
  ⟨"j2", "s1", "300.000100", "later task", "u1", JobStatus.queued, none, none, none⟩

/-- Running job used by the C4 witness. -/
def jobRunningC4 : Job :=
  ⟨"j1", "s1", "250.000100", "current task", "u1", JobStatus.running, some 1, none, none⟩

/-- Scheduler state for the C4 witness: one running job with an active
worker and one queued sibling behind it. -/
def stC4 : SchedulerState :=
  ⟨[jobRunningC4, jobQueuedC4], [("s1", ⟨"s1", "j1", false, 3⟩)], [], [("s1", "running")]⟩

/-- C4 witness: on the concrete state, abort flags the worker's cancellation
handle and the queued sibling is no longer in the store, while stop leaves
the job store exactly as it was. -/
theorem abort_clears_backlog_stop_preserves_witness :
    mapLookup "s1" (sessionManagerAbort "s1" stC4).activeWorkers
        = some ⟨"s1", "j1", true, 3⟩ ∧
    (sessionManagerStop "s1" stC4).jobs = stC4.jobs :=
  ⟨(abort_clears_backlog_stop_preserves stC4 "s1" ⟨"s1", "j1", false, 3⟩ (by decide)).1,
   (abort_clears_backlog_stop_preserves stC4 "s1" ⟨"s1", "j1", false, 3⟩ (by decide)).2.2.2.1⟩

/-! Worker execution, from Scheduler.runWorker (scheduler.ts lines
114-289).  The async body is rendered as the trace of its observable
actions; the nested try/catch/finally is mirrored by case analysis on how
the agent loop ends (`LoopOutcome`), on the pre-try client guard, and on
whether the session record exists — the latter makes `sessions.update`
throw inside both the try block and the `finally`, truncating the trace
exactly where the source aborts. -/

/-- How the agent-loop run of one worker ends: normal completion,
cancellation (an AbortError or a set abort signal, which the runtime
timeout also produces), or any other thrown error. -/
inductive LoopOutcome
  | success (summary : String)
  | cancelled
  | failure (message : String)
deriving DecidableEq, Repr

/-- Observable actions of one `runWorker` call, in order. -/
inductive WorkerEffect
  | jobStarted (jobId : String)
  | sessionStatusSet (sessionId status : String)
  | reactionUpdated (oldEmoji newEmoji : String)
  | contextGathered (sessionId : String)
  | jobCompleted (jobId summary : String)
  | resultsPosted (jobId : String)
  | jobFailed (jobId reason : String)
  | errorPosted (sessionId : String)
  | workerRemoved (sessionId : String)
  | idleTimerArmed (sessionId : String)
  | scheduleNextInvoked (sessionId : String)
deriving DecidableEq, Repr

/-- The four actions of runWorker's `finally` block, in source order:
delete the ActiveWorker, set the session status back to "idle", arm the
idle-cleanup timer, call `scheduleNext` again. -/
def finalCleanup (sessionId : String) : List WorkerEffect :=
  [WorkerEffect.workerRemoved sessionId,
   WorkerEffect.sessionStatusSet sessionId "idle",
   WorkerEffect.idleTimerArmed sessionId,
   WorkerEffect.scheduleNextInvoked sessionId]

/-- Embedding of `Scheduler.runWorker` as its effect trace, including its
throwing paths.  `clientInitialized` reflects the `if (!this.client) throw`
guard that runs before the try/finally (scheduler.ts lines 118-120): when
false, nothing at all runs.  `sessionExists` is whether the session record
is in the store: when false, `SessionManager.setStatus(sessionId,
"running")` throws `Session not found` out of `sessions.update` before any
status is written, the outer catch marks the job failed (its own `findById`
also returns null, so nothing is posted), and then the `finally` removes
the ActiveWorker but its `SessionManager.setStatus(sessionId, "idle")`
throws again — so the idle timer is never armed and `scheduleNext` is not
re-invoked (the rejection is only logged by `scheduleNext`'s catch).
`outcome` is how the agent loop under the runtime-timeout guard ends;
`categorize` renders a thrown error's categorized user message
(`categorizeError(err).userMessage` from src/common/errors.ts).  With the
client initialized and the session present: success marks the job
succeeded and posts results; an abort marks it failed with
"Aborted by user"; any other error is categorized, the job marked failed,
and the error posted to the thread; and the `finally` appends the full
`finalCleanup`.  The job record itself is in the store (scheduleNext
fetched it from there), so `jobs.update` calls succeed. -/
def runWorker (sessionId : String) (job : Job) (clientInitialized : Bool)
    (sessionExists : Bool) (outcome : LoopOutcome) (categorize : String → String) :
    List WorkerEffect :=
  if clientInitialized = false then
    []
  else if sessionExists = false then
    [WorkerEffect.jobStarted job.id,
     WorkerEffect.jobFailed job.id
       (categorize ("Session " ++ sessionId ++ " not found")),
     WorkerEffect.workerRemoved sessionId]
  else
    let isMeetJob := job.promptMessageTs.startsWith "meet-"
    let body :=
      [WorkerEffect.jobStarted job.id,
       WorkerEffect.sessionStatusSet sessionId "running"] ++
      (if isMeetJob then [] else
        [WorkerEffect.reactionUpdated "eyes" "hourglass_flowing_sand"]) ++
      [WorkerEffect.contextGathered sessionId] ++
      match outcome with
      | LoopOutcome.success summary =>
        [WorkerEffect.jobCompleted job.id summary,
         WorkerEffect.resultsPosted job.id] ++
        (if isMeetJob then [] else
          [WorkerEffect.reactionUpdated "hourglass_flowing_sand" "white_check_mark"])
      | LoopOutcome.cancelled =>
        [WorkerEffect.jobFailed job.id "Aborted by user"] ++
        (if isMeetJob then [] else
          [WorkerEffect.reactionUpdated "hourglass_flowing_sand" "octagonal_sign"])
      | LoopOutcome.failure message =>
        -- rethrown into the outer catch
        [WorkerEffect.jobFailed job.id (categorize message)] ++
        (if isMeetJob then [] else
          [WorkerEffect.reactionUpdated "hourglass_flowing_sand" "x"]) ++
        [WorkerEffect.errorPosted sessionId]
    body ++ finalCleanup sessionId

/-- Job used by the C2 counterexample: a plain (non-Meet) running job. -/
def jobC2 : Job :=
  ⟨"j1", "s1", "100.000100", "task", "u1", JobStatus.running, some 1, none, none⟩

/-- C2 counterexample: the final cleanup does not run on every invocation.
With the session record absent from the store, the `finally` clause's own
`setStatus("idle")` throws after `activeWorkers.delete`, so the trace stops
at the worker removal — the idle timer is never armed and `scheduleNext` is
never re-invoked; and with the Slack client not initialized, `runWorker`
throws before the try/finally and no cleanup at all runs (not even the
worker removal). -/
theorem runWorker_cleanup_counterexample :
    runWorker "s1" jobC2 true false (LoopOutcome.success "ok") (fun m => m)
        = [WorkerEffect.jobStarted "j1",
           WorkerEffect.jobFailed "j1" "Session s1 not found",
           WorkerEffect.workerRemoved "s1"] ∧
    WorkerEffect.idleTimerArmed "s1" ∉
      runWorker "s1" jobC2 true false (LoopOutcome.success "ok") (fun m => m) ∧
    WorkerEffect.scheduleNextInvoked "s1" ∉
      runWorker "s1" jobC2 true false (LoopOutcome.success "ok") (fun m => m) ∧
    runWorker "s1" jobC2 false true (LoopOutcome.success "ok") (fun m => m)
        = [] := by
  refine ⟨by decide, by decide, by decide, by decide⟩

/-- C2 (amended): provided the Scheduler is initialized with its Slack
client and the session record exists in the store (so the storage updates
in the `finally` succeed), then on every outcome of `runWorker` — success,
cancellation, or any other thrown error — the trace ends with the full
`finally` cleanup: worker removal, session set back to idle, idle timer
armed, and a further `scheduleNext` invocation; and each of those four
actions occurs exactly once in the trace. -/
theorem runWorker_cleanup_when_ready (sessionId : String) (job : Job)
    (outcome : LoopOutcome) (categorize : String → String) :
    (finalCleanup sessionId) <:+ runWorker sessionId job true true outcome categorize ∧
    (runWorker sessionId job true true outcome categorize).count
        (WorkerEffect.workerRemoved sessionId) = 1 ∧
    (runWorker sessionId job true true outcome categorize).count
        (WorkerEffect.sessionStatusSet sessionId "idle") = 1 ∧
    (runWorker sessionId job true true outcome categorize).count
        (WorkerEffect.idleTimerArmed sessionId) = 1 ∧
    (runWorker sessionId job true true outcome categorize).count
        (WorkerEffect.scheduleNextInvoked sessionId) = 1 := by
  refine ⟨⟨_, rfl⟩, ?_, ?_, ?_, ?_⟩ <;>
    cases outcome <;>
      by_cases hm : job.promptMessageTs.startsWith "meet-" = true <;>
        simp [runWorker, finalCleanup, hm, List.count_append, List.count_cons]

/-! Agent loop, from src/worker/agent.ts. -/

/-- Attachment data on a thread message, from the schema as used in
`buildConversation` (name, mimetype, optionally extracted text). -/
structure Attachment where
  name : String
  mimetype : String
  extractedText : Option String
deriving DecidableEq, Repr

/-- A snapshot of a thread message, from the schema fields used by
`buildConversation`. -/
structure MessageSnapshot where
  userId : String
  text : String
  attachments : List Attachment
deriving DecidableEq, Repr

/-- Content block of an LLM message, from src/worker/llm.ts. -/
inductive ContentBlock
  | text (text : String)
  | toolUse (id name input : String)
  | toolResult (toolUseId content : String)
deriving DecidableEq, Repr

/-- LLM message content: a plain string or a list of content blocks, from
the `string | ContentBlock[]` union in llm.ts. -/
inductive MsgContent
  | str (s : String)
  | blocks (bs : List ContentBlock)
deriving DecidableEq, Repr

/-- A conversation turn sent to the LLM. -/
structure LLMMessage where
  role : String
  content : MsgContent
deriving DecidableEq, Repr

/-- A tool call requested by the model (`ToolUse` in llm.ts); the JSON
input is modelled as a string. -/
structure ToolUse where
  id : String
  name : String
  input : String
deriving DecidableEq, Repr

/-- An LLM response, from llm.ts: text, requested tool calls, stop
reason. -/
structure LLMResponse where
  text : String
  toolCalls : List ToolUse
  stopReason : String
deriving DecidableEq, Repr

/-- The Agent Loop's output, from agent.ts lines 30-34. -/
structure AgentResult where
  summary : String
  toolsUsed : List String
  iterations : Nat
deriving DecidableEq, Repr

/-- Thrown cancellation, from `abort.throwIfAborted()`. -/
inductive AgentError
  | aborted
deriving DecidableEq, Repr

/-- JS `haystack.includes(needle)` on strings. -/
def strIncludes (haystack needle : String) : Bool :=
  decide (needle.data <:+: haystack.data)

/-- Renders one message's attachments block, from buildConversation
(agent.ts lines 146-156): name, mimetype, and the extracted text fenced in
backticks. -/
def attachmentBlock (atts : List Attachment) : String :=
  if atts.isEmpty then ""
  else
    "\n\n[Attachments:" ++
    (atts.map (fun att =>
      "\n- " ++ att.name ++ " (" ++ att.mimetype ++ ")" ++
      match att.extractedText with
      | some t => "\n```\n" ++ t ++ "\n```"
      | none => "")).foldr (· ++ ·) "" ++
    "]"

/-- Embedding of `buildConversation` (agent.ts lines 125-167): walk the
thread messages, skipping any whose text contains the first 50 characters
of the current task; attribute a message to the assistant when its author
is the bot user; append attachment text; drop turns whose content trims to
empty; then append the current task as the final user turn. -/
def convStep (currentTask : String) (botUserId : Option String)
    (msg : MessageSnapshot) (acc : List LLMMessage) : List LLMMessage :=
  if strIncludes msg.text (currentTask.take 50) then acc
  else
    let isBot : Bool := match botUserId with
      | some b => decide (msg.userId = b)
      | none => false
    let role := if isBot then "assistant" else "user"
    let content := msg.text ++ attachmentBlock msg.attachments
    if content.trim = "" then acc
    else ⟨role, MsgContent.str content⟩ :: acc

/-- Folds the per-message step over the history and appends the current
task as the final user turn, completing `buildConversation`. -/
def buildConversation (messages : List MessageSnapshot) (currentTask : String)
    (botUserId : Option String) : List LLMMessage :=
  (messages.foldr (convStep currentTask botUserId) []) ++
    [⟨"user", MsgContent.str currentTask⟩]

theorem convStep_foldr_filter (currentTask : String) (botUserId : Option String)
    (messages : List MessageSnapshot) :
    messages.foldr (convStep currentTask botUserId) [] =
      (messages.filter
        (fun m => !(strIncludes m.text (currentTask.take 50)))).foldr
        (convStep currentTask botUserId) [] := by
  induction messages with
  | nil => rfl
  | cons m rest ih =>
    by_cases hm : strIncludes m.text (currentTask.take 50) = true
    · simp [List.filter_cons, hm, convStep, ih]
    · simp only [Bool.not_eq_true] at hm
      simp [List.filter_cons, hm, convStep, ih]

/-- C10: the conversation built for the LLM ends with a user turn holding
exactly the current task, and every history message whose text contains the
first 50 characters of the task is omitted — filtering such messages out of
the history beforehand yields the identical conversation. -/
theorem buildConversation_task_last_and_skips (messages : List MessageSnapshot)
    (currentTask : String) (botUserId : Option String) :
    (buildConversation messages currentTask botUserId).getLast?
        = some ⟨"user", MsgContent.str currentTask⟩ ∧
    buildConversation messages currentTask botUserId
        = buildConversation
            (messages.filter (fun m => !(strIncludes m.text (currentTask.take 50))))
            currentTask botUserId := by
  constructor
  · unfold buildConversation
    exact List.getLast?_concat _
  · unfold buildConversation
    rw [convStep_foldr_filter currentTask botUserId messages]

/-- Default of the `MAX_AGENT_ITERATIONS` config entry
(src/common/errors.ts line 289). -/
def MAX_AGENT_ITERATIONS : Nat := 50

/-- Set-insert for the `toolsUsed` JS `Set`, preserving insertion order. -/
def addToolUsed (used : List String) (name : String) : List String :=
  if name ∈ used then used else used ++ [name]

/-- Sequential execution of one turn's tool calls (agent.ts lines 265-307):
record each tool name in `toolsUsed` and collect a `tool_result` block per
call, truncating the result content to 50000 characters.  The tool
registry's execution (including its error formatting) is abstracted by
`exec`. -/
def execToolCalls (exec : ToolUse → String) :
    List ToolUse → List String → List String × List ContentBlock
  | [], used => (used, [])
  | tc :: rest, used =>
    let used' := addToolUsed used tc.name
    let result := ContentBlock.toolResult tc.id ((exec tc).take 50000)
    let (usedRest, results) := execToolCalls exec rest used'
    (usedRest, result :: results)

/-- One `while` pass of the agent loop (agent.ts lines 219-308), by fuel:
`fuel` is the number of remaining iterations (`maxIterations - iterations`),
so fuel 0 means the `iterations < config.MAX_AGENT_ITERATIONS` guard fails
and the loop falls through to the final return.  Each pass checks the
cancellation signal, calls the LLM on the transcript, stops when the model
requests no tool call or reports stop reason "end_turn", and otherwise
appends the assistant tool-use turn, executes the tools, appends their
results as a user turn and continues.  The final return is
`assistantText || "Task completed."` with the distinct tool names and the
iteration count. -/
def agentLoopGo (llm : List LLMMessage → LLMResponse) (exec : ToolUse → String)
    (aborted : Nat → Bool) :
    Nat → Nat → List LLMMessage → String → List String →
      Except AgentError AgentResult
  | 0, iterations, _conv, text, used =>
    Except.ok ⟨if text = "" then "Task completed." else text, used, iterations⟩
  | fuel + 1, iterations, conv, _text, used =>
    if aborted iterations then Except.error AgentError.aborted
    else
      let response := llm conv
      let iterations' := iterations + 1
      if response.toolCalls.isEmpty || response.stopReason = "end_turn" then
        Except.ok
          ⟨if response.text = "" then "Task completed." else response.text,
           used, iterations'⟩
      else
        let assistantBlocks :=
          (if response.text = "" then [] else [ContentBlock.text response.text]) ++
          response.toolCalls.map (fun tc => ContentBlock.toolUse tc.id tc.name tc.input)
        let conv1 := conv ++ [⟨"assistant", MsgContent.blocks assistantBlocks⟩]
        let step := execToolCalls exec response.toolCalls used
        let conv2 := conv1 ++ [⟨"user", MsgContent.blocks step.2⟩]
        agentLoopGo llm exec aborted fuel iterations' conv2 response.text step.1

/-- Embedding of `runAgentLoop` (agent.ts lines 172-318) restricted to its
loop core: seed the transcript with `buildConversation(messages,
job.promptText)` (no bot user id is passed there) and run the loop up to
`maxIterations`.  Directory setup, GPU probing, profile lookup and artifact
collection have no bearing on the returned `AgentResult` fields beyond what
the loop computes. -/
def runAgentLoop (llm : List LLMMessage → LLMResponse) (exec : ToolUse → String)
    (aborted : Nat → Bool) (maxIterations : Nat)
    (messages : List MessageSnapshot) (promptText : String) :
    Except AgentError AgentResult :=
  agentLoopGo llm exec aborted maxIterations 0
    (buildConversation messages promptText none) "" []

/-- An LLM stub that always requests one tool call but reports stop reason
"end_turn", used to refute claim C3 as stated. -/
def llmEndTurnStub : List LLMMessage → LLMResponse :=
  fun _ => ⟨"done", [⟨"t1", "bash", "x"⟩], "end_turn"⟩

/-- C3 counterexample: the loop's break condition is a disjunction —
`toolCalls.length === 0 || stopReason === "end_turn"` — so an LLM client
that always returns a tool call (but stop reason "end_turn") makes the loop
return after 1 iteration, not after MAX_AGENT_ITERATIONS = 50. -/
theorem runAgentLoop_iteration_cap_counterexample :
    (∀ conv, (llmEndTurnStub conv).toolCalls ≠ []) ∧
    runAgentLoop llmEndTurnStub (fun _ => "") (fun _ => false)
        MAX_AGENT_ITERATIONS [] "task" = Except.ok ⟨"done", [], 1⟩ ∧
    (1 : Nat) ≠ MAX_AGENT_ITERATIONS := by
  refine ⟨fun conv => by simp [llmEndTurnStub], ?_, by decide⟩
  simp [runAgentLoop, MAX_AGENT_ITERATIONS, buildConversation, agentLoopGo, llmEndTurnStub]

theorem agentLoopGo_full_fuel (llm : List LLMMessage → LLMResponse)
    (exec : ToolUse → String) (aborted : Nat → Bool)
    (hTools : ∀ conv, (llm conv).toolCalls ≠ [])
    (hStop : ∀ conv, (llm conv).stopReason ≠ "end_turn")
    (hAbort : ∀ n, aborted n = false) :
    ∀ fuel iterations conv text used, ∃ s u,
      agentLoopGo llm exec aborted fuel iterations conv text used =
        Except.ok ⟨s, u, iterations + fuel⟩ := by
  intro fuel
  induction fuel with
  | zero =>
    intro iterations conv text used
    exact ⟨_, _, rfl⟩
  | succ n ih =>
    intro iterations conv text used
    have hT := hTools conv
    have hS := hStop conv
    obtain ⟨s, u, hrec⟩ := ih (iterations + 1) _ (llm conv).text
      (execToolCalls exec (llm conv).toolCalls used).1
    refine ⟨s, u, ?_⟩
    rw [agentLoopGo]
    rw [hAbort iterations]
    simp only [Bool.false_eq_true, if_false]
    rw [if_neg (by simp [List.isEmpty_iff, hT, hS])]
    rw [hrec]
    have : iterations + 1 + n = iterations + (n + 1) := by omega
    rw [this]

/-- C3 (amended): if the LLM client always returns at least one tool call
with a stop reason other than "end_turn", the cancellation signal is never
set, and no call throws, then `runAgentLoop` returns without throwing after
exactly `maxIterations` loop passes, with `iterations` equal to the
configured maximum (MAX_AGENT_ITERATIONS = 50 by default). -/
theorem runAgentLoop_iteration_cap (llm : List LLMMessage → LLMResponse)
    (exec : ToolUse → String) (aborted : Nat → Bool) (maxIterations : Nat)
    (messages : List MessageSnapshot) (promptText : String)
    (hTools : ∀ conv, (llm conv).toolCalls ≠ [])
    (hStop : ∀ conv, (llm conv).stopReason ≠ "end_turn")
    (hAbort : ∀ n, aborted n = false) :
    ∃ s u, runAgentLoop llm exec aborted maxIterations messages promptText =
      Except.ok ⟨s, u, maxIterations⟩ := by
  have h := agentLoopGo_full_fuel llm exec aborted hTools hStop hAbort
    maxIterations 0 (buildConversation messages promptText none) "" []
  simpa [runAgentLoop] using h

/-- An LLM stub that always requests one tool call with stop reason
"tool_use", for the C3 witness. -/
def llmToolUseStub : List LLMMessage → LLMResponse :=
  fun _ => ⟨"working", [⟨"t1", "bash", "x"⟩], "tool_use"⟩

/-- C3 witness: with the tool-requesting stub, no abort, and the default
cap of 50, the loop returns a result whose iteration count is exactly
MAX_AGENT_ITERATIONS. -/
theorem runAgentLoop_iteration_cap_witness :
    ∃ s u, runAgentLoop llmToolUseStub (fun _ => "") (fun _ => false)
        MAX_AGENT_ITERATIONS [] "do the task" =
      Except.ok ⟨s, u, MAX_AGENT_ITERATIONS⟩ :=
  runAgentLoop_iteration_cap llmToolUseStub (fun _ => "") (fun _ => false)
    MAX_AGENT_ITERATIONS [] "do the task"
    (fun conv => by simp [llmToolUseStub])
    (fun conv => by simp [llmToolUseStub])
    (fun n => rfl)

/-! Retry policy, from the retry utility (src/common/retry.ts).  Delays are
rationals of milliseconds; `Math.random()` draws are passed in explicitly;
the abort signal is an optional virtual-clock instant at which it fires;
the executor returns the result paired with the virtual completion time, so
that "returns immediately" is expressible. -/

/-- Shape of a thrown error as inspected by the retry utility: whether it
is an `Error` instance and its name/message, the three HTTP-status lookup
paths of `getErrorStatus` (direct `status`, `response.status`,
`error.status`), and the parsed integer value in seconds of a retry-after
header when one is present (collapsing the header lookup paths of
`getRetryAfterMs`). -/
structure ErrObj where
  isError : Bool
  name : String
  message : String
  status : Option Int
  responseStatus : Option Int
  innerStatus : Option Int
  retryAfterSecs : Option Int
deriving DecidableEq, Repr

/-- Embedding of `getErrorStatus`: try the direct status property, then the
response object's, then the nested error object's. -/
def getErrorStatus (e : Option ErrObj) : Option Int :=
  match e with
  | none => none
  | some err =>
    match err.status with
    | some s => some s
    | none =>
      match err.responseStatus with
      | some s => some s
      | none => err.innerStatus

/-- Embedding of `getRetryAfterMs`: the retry-after header value is in
seconds and is converted to milliseconds. -/
def getRetryAfterMs (e : Option ErrObj) : Option ℚ :=
  match e with
  | none => none
  | some err =>
    match err.retryAfterSecs with
    | some s => some ((s : ℚ) * 1000)
    | none => none

/-- Network-error substring check of `isRetryableError` (retry.ts lines
60-72): the lowercased message contains one of the recognized fragments. -/
def isNetworkErrorMessage (err : ErrObj) : Bool :=
  err.isError &&
    (let m := err.message.toLower
     strIncludes m "network" || strIncludes m "econnreset" ||
     strIncludes m "econnrefused" || strIncludes m "etimedout" ||
     strIncludes m "socket hang up" || strIncludes m "fetch failed")

/-- Embedding of the default `isRetryableError`: never retry aborts; retry
429 and 5xx; do not retry other 4xx; otherwise retry on recognized network
error messages. -/
def isRetryableError (e : Option ErrObj) : Bool :=
  match e with
  | none => false
  | some err =>
    if err.isError && err.name == "AbortError" then false
    else
      match getErrorStatus (some err) with
      | some s =>
        if s = 429 then true
        else if 500 ≤ s ∧ s < 600 then true
        else if 400 ≤ s ∧ s < 500 then false
        else isNetworkErrorMessage err
      | none => isNetworkErrorMessage err

/-- JS `Math.round` on a nonnegative value: floor of the value plus one
half. -/
def jsRound (q : ℚ) : ℤ := ⌊q + 1 / 2⌋

/-- Embedding of `calculateDelay` (retry.ts lines 167-183): exponential
backoff capped at `maxDelayMs`, then — note the order — multiplied by the
jitter factor `1 + rand * 0.25` when jitter is enabled, and rounded. -/
def calculateDelay (attempt : Nat) (initialDelayMs maxDelayMs backoffFactor : ℚ)
    (jitter : Bool) (rand : ℚ) : ℚ :=
  let d1 := initialDelayMs * backoffFactor ^ attempt
  let d2 := min d1 maxDelayMs
  let d3 := if jitter then d2 * (1 + rand * (1 / 4)) else d2
  ((jsRound d3 : ℤ) : ℚ)

/-- Delay selection inside `retry` (retry.ts lines 248-255): take the
backoff delay, but when the error carries a positive retry-after duration
use `min(retryAfter, maxDelayMs)` instead. -/
def nextDelay (attempt : Nat) (initialDelayMs maxDelayMs backoffFactor : ℚ)
    (jitter : Bool) (rand : ℚ) (e : ErrObj) : ℚ :=
  let delay := calculateDelay attempt initialDelayMs maxDelayMs backoffFactor jitter rand
  match getRetryAfterMs (some e) with
  | some ra => if 0 < ra then min ra maxDelayMs else delay
  | none => delay

/-- Result record of `retry` (retry.ts lines 29-34); the error is carried
as its message string. -/
structure RetryResult (T : Type) where
  success : Bool
  data : Option T
  errMessage : Option String
  attempts : Nat
deriving DecidableEq, Repr

/-- Outcome of one invocation of the wrapped operation. -/
inductive OpResult (T : Type)
  | ok (v : T)
  | err (e : ErrObj)
deriving DecidableEq, Repr

/-- Whether the abort signal (firing at the given optional instant) is
already set at virtual time `now`. -/
def signalAborted (abortAt : Option ℚ) (now : ℚ) : Bool :=
  match abortAt with
  | some t => decide (t ≤ now)
  | none => false

/-- One pass of the `for attempt in 0..=maxRetries` loop of `retry`
(retry.ts lines 206-278), by remaining fuel, carrying the attempt index,
the virtual clock and the last error message.  Each pass: return "Aborted"
if the signal is already set; run the operation (`fn attempt`, taking no
virtual time); on success return it; on failure return it if attempts are
exhausted or the error is not retryable; otherwise sleep for `nextDelay` —
a sleep during which the abort signal fires rejects at the abort instant
and yields the "Aborted" failure immediately — and continue. -/
def retryGo {T : Type} (fn : Nat → OpResult T) (isR : Option ErrObj → Bool)
    (rand : Nat → ℚ) (abortAt : Option ℚ) (maxRetries : Nat)
    (initialDelayMs maxDelayMs backoffFactor : ℚ) (jitter : Bool) :
    Nat → Nat → ℚ → Option String → RetryResult T × ℚ
  | 0, attempt, elapsed, lastError =>
    (⟨false, none, some (lastError.getD "Unknown error"), attempt⟩, elapsed)
  | fuel + 1, attempt, elapsed, _lastError =>
    let attempts := attempt + 1
    if signalAborted abortAt elapsed then
      (⟨false, none, some "Aborted", attempts⟩, elapsed)
    else
      match fn attempt with
      | OpResult.ok v => (⟨true, some v, none, attempts⟩, elapsed)
      | OpResult.err e =>
        let lastError := some e.message
        if decide (maxRetries ≤ attempt) || !(isR (some e)) then
          (⟨false, none, lastError, attempts⟩, elapsed)
        else
          let delay := nextDelay attempt initialDelayMs maxDelayMs backoffFactor
            jitter (rand attempt) e
          match abortAt with
          | some t =>
            if t < elapsed + delay then
              (⟨false, none, some "Aborted", attempts⟩, t)
            else
              retryGo fn isR rand abortAt maxRetries initialDelayMs maxDelayMs
                backoffFactor jitter fuel attempts (elapsed + delay) lastError
          | none =>
            retryGo fn isR rand abortAt maxRetries initialDelayMs maxDelayMs
              backoffFactor jitter fuel attempts (elapsed + delay) lastError

/-- Embedding of `retry`: run the attempt loop `maxRetries + 1` times from
attempt 0 at virtual time 0. -/
def retry {T : Type} (fn : Nat → OpResult T) (isR : Option ErrObj → Bool)
    (rand : Nat → ℚ) (abortAt : Option ℚ) (maxRetries : Nat)
    (initialDelayMs maxDelayMs backoffFactor : ℚ) (jitter : Bool) :
    RetryResult T × ℚ :=
  retryGo fn isR rand abortAt maxRetries initialDelayMs maxDelayMs backoffFactor
    jitter (maxRetries + 1) 0 0 none

/-- `retry` with the defaults of retry.ts lines 192-201: maxRetries 3,
initial delay 1000 ms, max delay 30000 ms, backoff factor 2, jitter on,
the default retryability predicate, and no abort signal. -/
def retryWithDefaults {T : Type} (fn : Nat → OpResult T) (rand : Nat → ℚ) :
    RetryResult T × ℚ :=
  retry fn isRetryableError rand none 3 1000 30000 2 true

theorem jsRound_eq_of (q : ℚ) (z : ℤ) (hlo : (z : ℚ) ≤ q + 1 / 2)
    (hhi : q + 1 / 2 < z + 1) : jsRound q = z := by
  unfold jsRound
  exact Int.floor_eq_iff.mpr ⟨hlo, by exact_mod_cast hhi⟩

/-- C7 counterexample: `calculateDelay` caps at `maxDelayMs` before
multiplying by the jitter factor, so with initial delay 1000 ms, max delay
1000 ms, backoff 2, attempt 0 and a jitter draw of 1/2 the produced delay
is 1125 ms — it exceeds `maxDelayMs` and differs from the claim's
`min(initialDelay * backoff ^ attempt * (1 + jitter), maxDelay)` = 1000. -/
theorem calculateDelay_cap_counterexample :
    calculateDelay 0 1000 1000 2 true (1 / 2) = 1125 ∧
    min ((1000 : ℚ) * 2 ^ 0 * (1 + (1 / 2) * (1 / 4))) 1000 = 1000 ∧
    (1000 : ℚ) < calculateDelay 0 1000 1000 2 true (1 / 2) := by
  have hcd : calculateDelay 0 1000 1000 2 true (1 / 2)
      = ((jsRound (min ((1000 : ℚ) * 2 ^ 0) 1000 * (1 + (1 / 2) * (1 / 4))) : ℤ) : ℚ) :=
    rfl
  have harg : min ((1000 : ℚ) * 2 ^ 0) 1000 * (1 + (1 / 2) * (1 / 4)) = 1125 := by
    norm_num
  have hjr : jsRound (1125 : ℚ) = 1125 :=
    jsRound_eq_of 1125 1125 (by norm_num) (by norm_num)
  refine ⟨?_, ?_, ?_⟩
  · rw [hcd, harg, hjr]; norm_num
  · rw [show ((1000 : ℚ) * 2 ^ 0 * (1 + (1 / 2) * (1 / 4))) = 1125 by norm_num]
    exact min_eq_right (by norm_num)
  · rw [hcd, harg, hjr]; norm_num

/-- C7 (amended): with jitter enabled the backoff delay equals
`round(min(initialDelay * backoff ^ attempt, maxDelay) * (1 + jitter))` —
the cap is applied before the jitter factor, so the delay can exceed
`maxDelayMs` by up to 25% (plus rounding), staying below
`maxDelay * 5/4 + 1/2`; when the error carries a positive server-supplied
retry-after duration, that duration capped at `maxDelayMs` is used
instead. -/
theorem calculateDelay_formula (attempt : Nat) (init maxD backoff rand : ℚ)
    (e : ErrObj) (h0 : 0 ≤ init) (h1 : 0 ≤ backoff) (h2 : 0 ≤ maxD)
    (h3 : 0 ≤ rand) (h4 : rand ≤ 1) :
    calculateDelay attempt init maxD backoff true rand
        = ((jsRound (min (init * backoff ^ attempt) maxD * (1 + rand * (1 / 4))) : ℤ) : ℚ) ∧
    calculateDelay attempt init maxD backoff true rand ≤ maxD * (5 / 4) + 1 / 2 ∧
    (∀ ra, getRetryAfterMs (some e) = some ra → 0 < ra →
      nextDelay attempt init maxD backoff true rand e = min ra maxD ∧
      min ra maxD ≤ maxD) := by
  refine ⟨rfl, ?_, ?_⟩
  · have hd1 : 0 ≤ init * backoff ^ attempt := mul_nonneg h0 (pow_nonneg h1 _)
    have hdm : min (init * backoff ^ attempt) maxD ≤ maxD := min_le_right _ _
    have hdm0 : 0 ≤ min (init * backoff ^ attempt) maxD := le_min hd1 h2
    have hf : 1 + rand * (1 / 4) ≤ 5 / 4 := by linarith
    have hf0 : 0 ≤ 1 + rand * (1 / 4) := by linarith
    have hx : min (init * backoff ^ attempt) maxD * (1 + rand * (1 / 4))
        ≤ maxD * (5 / 4) := mul_le_mul hdm hf hf0 h2
    have hcd : calculateDelay attempt init maxD backoff true rand
        = ((⌊min (init * backoff ^ attempt) maxD * (1 + rand * (1 / 4)) + 1 / 2⌋ : ℤ) : ℚ) :=
      rfl
    rw [hcd]
    have hfl := Int.floor_le
      (min (init * backoff ^ attempt) maxD * (1 + rand * (1 / 4)) + 1 / 2)
    linarith
  · intro ra hra hpos
    refine ⟨?_, min_le_right _ _⟩
    simp only [nextDelay, hra]
    rw [if_pos hpos]

/-- Rate-limited error carrying a retry-after header of 5 seconds, for the
C7 witness. -/
def errRetryAfterC7 : ErrObj :=
  ⟨true, "Error", "rate limited", some 429, none, none, some 5⟩

/-- C7 witness: at attempt 0 with delays 1000/1000 ms the amended bound
holds concretely, and the 5000 ms retry-after duration is capped to the
1000 ms max delay. -/
theorem calculateDelay_formula_witness :
    calculateDelay 0 1000 1000 2 true (1 / 2) ≤ 1000 * (5 / 4) + 1 / 2 ∧
    nextDelay 0 1000 1000 2 true (1 / 2) errRetryAfterC7 = min 5000 1000 :=
  ⟨(calculateDelay_formula 0 1000 1000 2 (1 / 2) errRetryAfterC7
      (by norm_num) (by norm_num) (by norm_num) (by norm_num) (by norm_num)).2.1,
   ((calculateDelay_formula 0 1000 1000 2 (1 / 2) errRetryAfterC7
      (by norm_num) (by norm_num) (by norm_num) (by norm_num) (by norm_num)).2.2
      5000 (by simp only [getRetryAfterMs, errRetryAfterC7]; norm_num)
      (by norm_num)).1⟩

theorem isRetryableError_status400 (e : ErrObj)
    (h : getErrorStatus (some e) = some 400) :
    isRetryableError (some e) = false := by
  simp only [isRetryableError, h]
  by_cases hab : (e.isError && e.name == "AbortError") = true
  · simp [hab]
  · simp [hab]

theorem retryGo_ok_step {T : Type} (fn : Nat → OpResult T)
    (isR : Option ErrObj → Bool) (rand : Nat → ℚ) (maxRetries : Nat)
    (init maxD backoff : ℚ) (jitter : Bool) (fuel attempt : Nat) (elapsed : ℚ)
    (lastError : Option String) (v : T) (hfn : fn attempt = OpResult.ok v) :
    retryGo fn isR rand none maxRetries init maxD backoff jitter
        (fuel + 1) attempt elapsed lastError
      = (⟨true, some v, none, attempt + 1⟩, elapsed) := by
  simp [retryGo, signalAborted, hfn]

theorem retryGo_err_fail {T : Type} (fn : Nat → OpResult T)
    (isR : Option ErrObj → Bool) (rand : Nat → ℚ) (maxRetries : Nat)
    (init maxD backoff : ℚ) (jitter : Bool) (fuel attempt : Nat) (elapsed : ℚ)
    (lastError : Option String) (e : ErrObj) (hfn : fn attempt = OpResult.err e)
    (hnr : isR (some e) = false) :
    retryGo fn isR rand none maxRetries init maxD backoff jitter
        (fuel + 1) attempt elapsed lastError
      = (⟨false, none, some e.message, attempt + 1⟩, elapsed) := by
  simp [retryGo, signalAborted, hfn, hnr]

theorem retryGo_err_cont {T : Type} (fn : Nat → OpResult T)
    (isR : Option ErrObj → Bool) (rand : Nat → ℚ) (maxRetries : Nat)
    (init maxD backoff : ℚ) (jitter : Bool) (fuel attempt : Nat) (elapsed : ℚ)
    (lastError : Option String) (e : ErrObj) (hfn : fn attempt = OpResult.err e)
    (hr : isR (some e) = true) (hlt : attempt < maxRetries) :
    retryGo fn isR rand none maxRetries init maxD backoff jitter
        (fuel + 1) attempt elapsed lastError
      = retryGo fn isR rand none maxRetries init maxD backoff jitter fuel
          (attempt + 1)
          (elapsed + nextDelay attempt init maxD backoff jitter (rand attempt) e)
          (some e.message) := by
  simp [retryGo, signalAborted, hfn, hr, Nat.not_le.mpr hlt]

/-- C8: under the default options (3 retries, default retryability), an
operation failing twice with retryable errors and then succeeding yields a
successful result with attempts = 3, and an operation failing with an HTTP
400 error yields a failure with attempts = 1 carrying the last error. -/
theorem retry_roundtrip {T : Type} (v : T) (fn fn2 : Nat → OpResult T)
    (rand rand2 : Nat → ℚ) (e0 e1 e2 : ErrObj)
    (h0 : fn 0 = OpResult.err e0) (h1 : fn 1 = OpResult.err e1)
    (h2 : fn 2 = OpResult.ok v)
    (hr0 : isRetryableError (some e0) = true)
    (hr1 : isRetryableError (some e1) = true)
    (h20 : fn2 0 = OpResult.err e2)
    (hs2 : getErrorStatus (some e2) = some 400) :
    (retryWithDefaults fn rand).1 = ⟨true, some v, none, 3⟩ ∧
    (retryWithDefaults fn2 rand2).1 = ⟨false, none, some e2.message, 1⟩ := by
  constructor
  · unfold retryWithDefaults retry
    rw [retryGo_err_cont fn isRetryableError rand 3 1000 30000 2 true 3 0 0
        none e0 h0 hr0 (by norm_num)]
    rw [show (3 : Nat) = 2 + 1 from rfl]
    rw [retryGo_err_cont fn isRetryableError rand 3 1000 30000 2 true 2 1 _
        (some e0.message) e1 h1 hr1 (by norm_num)]
    rw [show (2 : Nat) = 1 + 1 from rfl]
    rw [retryGo_ok_step fn isRetryableError rand 3 1000 30000 2 true 1 2 _
        (some e1.message) v h2]
  · unfold retryWithDefaults retry
    rw [retryGo_err_fail fn2 isRetryableError rand2 3 1000 30000 2 true 3 0 0
        none e2 h20 (isRetryableError_status400 e2 hs2)]

/-- Retryable HTTP 500 error used by the C8 and C9 witnesses. -/
def errServer : ErrObj :=
  ⟨true, "Error", "internal server error", some 500, none, none, none⟩

/-- Non-retryable HTTP 400 error used by the C8 witness. -/
def errBadRequest : ErrObj :=
  ⟨true, "Error", "bad request", some 400, none, none, none⟩

/-- Operation for the C8 witness: two 500-failures, then success. -/
def fnTwoFailsC8 : Nat → OpResult Nat :=
  fun n => if n < 2 then OpResult.err errServer else OpResult.ok 7

/-- Operation for the C8 witness: immediate 400-failure. -/
def fnBadRequestC8 : Nat → OpResult Nat :=
  fun _ => OpResult.err errBadRequest

/-- C8 witness: the round-trip behaviors hold on the concrete stubbed
operations with the default options. -/
theorem retry_roundtrip_witness :
    (retryWithDefaults fnTwoFailsC8 (fun _ => 0)).1 = ⟨true, some 7, none, 3⟩ ∧
    (retryWithDefaults fnBadRequestC8 (fun _ => 0)).1
      = ⟨false, none, some errBadRequest.message, 1⟩ :=
  retry_roundtrip 7 fnTwoFailsC8 fnBadRequestC8 (fun _ => 0) (fun _ => 0)
    errServer errServer errBadRequest rfl rfl rfl (by decide) (by decide) rfl
    (by decide)

/-- C9: if the abort signal fires strictly inside the backoff sleep after a
retryable failure, the sleep is interrupted: `retry`'s loop returns at the
abort instant (not at the end of the delay) with a failure result carrying
the "Aborted" cancellation and the attempt count so far, and the operation
is not attempted again. -/
theorem retry_abort_during_backoff {T : Type} (fn : Nat → OpResult T)
    (isR : Option ErrObj → Bool) (rand : Nat → ℚ) (t : ℚ) (maxRetries : Nat)
    (init maxD backoff : ℚ) (jitter : Bool) (fuel attempt : Nat) (elapsed : ℚ)
    (lastError : Option String) (e : ErrObj)
    (hfn : fn attempt = OpResult.err e)
    (hr : isR (some e) = true)
    (hatt : attempt < maxRetries)
    (hnot : ¬ t ≤ elapsed)
    (hwin : t < elapsed + nextDelay attempt init maxD backoff jitter (rand attempt) e) :
    retryGo fn isR rand (some t) maxRetries init maxD backoff jitter
        (fuel + 1) attempt elapsed lastError
      = (⟨false, none, some "Aborted", attempt + 1⟩, t) := by
  simp [retryGo, signalAborted, hnot, hfn, hr, Nat.not_le.mpr hatt, hwin]

/-- C9 witness: with a 1000 ms computed backoff delay and the abort signal
firing at virtual time 500 during the first sleep, the loop returns at time
500 with the "Aborted" failure after a single attempt. -/
theorem retry_abort_during_backoff_witness :
    retryGo (fun _ => OpResult.err errServer : Nat → OpResult Nat)
        isRetryableError (fun _ => 0) (some 500) 3 1000 30000 2 false
        (3 + 1) 0 0 none
      = (⟨false, none, some "Aborted", 1⟩, 500) := by
  have hnd : nextDelay 0 1000 30000 2 false ((fun _ => (0 : ℚ)) 0) errServer
      = 1000 := by
    have hjr : jsRound (min ((1000 : ℚ) * 2 ^ 0) 30000) = 1000 := by
      rw [show min ((1000 : ℚ) * 2 ^ 0) 30000 = 1000 by norm_num]
      exact jsRound_eq_of 1000 1000 (by norm_num) (by norm_num)
    simp only [nextDelay, getRetryAfterMs, errServer, calculateDelay,
      Bool.false_eq_true, if_false, hjr]
    norm_num
  exact retry_abort_during_backoff (fun _ => OpResult.err errServer)
    isRetryableError (fun _ => 0) 500 3 1000 30000 2 false 3 0 0 none errServer
    rfl (by decide) (by norm_num) (by norm_num) (by rw [hnd]; norm_num)

/-! Job manager, from the session-management module (`JobManager`), and the
Scheduler's event subscriptions from `Scheduler.init`. -/

/-- Lifecycle events published on the event bus by the session/job
managers, as far as the Scheduler's subscriptions are concerned. -/
inductive BusEvent
  | jobQueued (jobId sessionId : String)
  | jobStarted (jobId sessionId : String)
  | jobCompleted (jobId sessionId summary : String)
  | jobFailed (jobId sessionId error : String)
deriving DecidableEq, Repr

/-- Embedding of `jobs.update` from src/storage/local.ts: throw
`Job not found` when the id is absent, else merge the patch into the stored
record. -/
def storeUpdateJob (jobId : String) (patch : Job → Job) (jobs : List Job) :
    Except String (List Job) :=
  match jobs.find? (fun j => decide (j.id = jobId)) with
  | none => Except.error ("Job " ++ jobId ++ " not found")
  | some _ =>
    Except.ok (jobs.map (fun j => if j.id = jobId then patch j else j))

/-- Embedding of `JobManager.complete`: read the job (for the
`job.completed` publish), unconditionally update it to `succeeded` with a
fresh end time and the summary, then — when the pre-read found the job —
publish `job.completed`.  There is no check of the job's current status. -/
def jobManagerComplete (now : Nat) (jobId summary : String) (jobs : List Job) :
    Except String (List Job × List BusEvent) :=
  let job? := jobs.find? (fun j => decide (j.id = jobId))
  match storeUpdateJob jobId
      (fun j => { j with
        status := JobStatus.succeeded,
        endedAt := some now,
        resultSummary := some summary }) jobs with
  | Except.error e => Except.error e
  | Except.ok jobs' =>
    match job? with
    | some job =>
      Except.ok (jobs', [BusEvent.jobCompleted jobId job.sessionId summary])
    | none => Except.ok (jobs', [])

/-- The sessions for which the Scheduler's `init` subscriptions invoke
`scheduleNext` when the given events are published: it subscribes to
`job.queued`, `job.completed` and `job.failed` (scheduler.ts lines
55-67). -/
def scheduleNextTargets (events : List BusEvent) : List String :=
  events.filterMap (fun e =>
    match e with
    | BusEvent.jobQueued _ sessionId => some sessionId
    | BusEvent.jobCompleted _ sessionId _ => some sessionId
    | BusEvent.jobFailed _ sessionId _ => some sessionId
    | BusEvent.jobStarted _ _ => none)

/-- An already-succeeded job used to refute claim C6 as stated. -/
def jobDoneC6 : Job :=
  ⟨"j1", "s1", "100.000100", "task", "u1", JobStatus.succeeded, some 1, some 5,
    some "old summary"⟩

/-- C6 counterexample: completing the already-succeeded job again does not
throw, but it is not a no-op — the stored record's end time and summary are
overwritten and `job.completed` is published again, so the Scheduler's
subscription invokes one more `scheduleNext` for the session. -/
theorem jobManagerComplete_not_idempotent_counterexample :
    jobManagerComplete 9 "j1" "new summary" [jobDoneC6]
        = Except.ok
            ([⟨"j1", "s1", "100.000100", "task", "u1", JobStatus.succeeded,
               some 1, some 9, some "new summary"⟩],
             [BusEvent.jobCompleted "j1" "s1" "new summary"]) ∧
    scheduleNextTargets [BusEvent.jobCompleted "j1" "s1" "new summary"]
        = ["s1"] ∧
    (some 9 : Option Nat) ≠ jobDoneC6.endedAt := by
  refine ⟨?_, rfl, by decide⟩
  simp [jobManagerComplete, storeUpdateJob, jobDoneC6]

/-- C6 (amended): calling `JobManager.complete` on a job that is already
`succeeded` does not throw, but it is not a no-op: the record is rewritten
(status `succeeded`, fresh end time, new summary) and `job.completed` is
dispatched again, causing one additional `scheduleNext` invocation for the
job's session (that call is itself a no-op only by C1's single-flight
guard or an empty queue). -/
theorem jobManagerComplete_republishes (now : Nat) (jobId summary : String)
    (jobs : List Job) (job : Job)
    (hfind : jobs.find? (fun j => decide (j.id = jobId)) = some job)
    (_hdone : job.status = JobStatus.succeeded) :
    jobManagerComplete now jobId summary jobs
        = Except.ok
            (jobs.map (fun j => if j.id = jobId then
              { j with
                status := JobStatus.succeeded,
                endedAt := some now,
                resultSummary := some summary } else j),
             [BusEvent.jobCompleted jobId job.sessionId summary]) ∧
    scheduleNextTargets [BusEvent.jobCompleted jobId job.sessionId summary]
        = [job.sessionId] := by
  constructor
  · simp [jobManagerComplete, storeUpdateJob, hfind]
  · rfl

/-- C6 witness: the amended behavior on the concrete already-succeeded
job. -/
theorem jobManagerComplete_republishes_witness :
    jobManagerComplete 9 "j1" "new summary" [jobDoneC6]
        = Except.ok
            ([jobDoneC6].map (fun j => if j.id = "j1" then
              { j with
                status := JobStatus.succeeded,
                endedAt := some 9,
                resultSummary := some "new summary" } else j),
             [BusEvent.jobCompleted "j1" jobDoneC6.sessionId "new summary"]) ∧
    scheduleNextTargets
        [BusEvent.jobCompleted "j1" jobDoneC6.sessionId "new summary"]
        = [jobDoneC6.sessionId] :=
  jobManagerComplete_republishes 9 "j1" "new summary" [jobDoneC6] jobDoneC6
    (by decide) rfl
